import Mathlib

/-
Verification of the answer-resolution core of the RenderGuru bot
(src/bot.py) against its natural-language specification.

The embedding is shallow: the database tables `knowledge_base` and
`admins` are lists of records, SQLAlchemy query results are modelled by
filtering those lists, `scalar_one_or_none` is an extractor that
errors when given more than one row, and the `db_retry` decorator is an explicit
bounded retry loop.  Exceptions are modelled with `Except` over the
`PyExc` error type.  External calls made by a handler are recorded in an
explicit trace of `CallEv` events so that claims about which component
performs which call become provable statements.
-/

/-- Exceptions that the modelled code can raise: a storage failure coming
from the database driver, the `MultipleResultsFound` raised by
`scalar_one_or_none`, and the generic `Exception` that the `db_retry`
decorator raises after exhausting its attempts (bot.py line 83). -/
inductive PyExc
  | storageUnavailable
  | multipleResultsFound
  | maxRetriesExceeded
deriving DecidableEq

/-- External calls a handler can perform: a database query attempt, a call
to the OpenAI generative fallback, or a knowledge-base write. -/
inductive CallEv
  | dbCall
  | genCall
  | upsertCall
deriving DecidableEq

/-- A row of the `knowledge_base` table (bot.py lines 147-154): integer
primary key, question text, answer text and the author id.  The
`created_at` server timestamp plays no role in the logic and is omitted. -/
structure KBEntry where
  id : Nat
  question : String
  answer : String
  created_by : Int
deriving DecidableEq

/-- A row of the `admins` table (bot.py lines 140-144): integer primary key
and the (unique) telegram user id. -/
structure AdminRec where
  id : Nat
  user_id : Int
deriving DecidableEq

/-- Lowercased character list of a string; models the case folding that
the SQL `ILIKE` comparison applies to both of its operands. -/
def lowerL (s : String) : List Char := s.data.map Char.toLower

/-- Bool-valued occurrence check: does `needle` occur as a contiguous run
inside `hay`?  This is the semantics of the SQL pattern
`LIKE CONCAT(PERCENT, needle, PERCENT)` for wildcard-free text. -/
def strIncludes (needle : List Char) : List Char → Bool
  | [] => needle.isEmpty
  | c :: t => needle.isPrefixOf (c :: t) || strIncludes needle t

/-- The `ILIKE` filter used by `get_answer_from_db` (bot.py line 196): the
stored question matches when it contains the query as a case-insensitive
substring. -/
def ilikeMatch (stored q : String) : Bool :=
  strIncludes (lowerL q) (lowerL stored)

/-- The rows returned by
`select(KnowledgeBase).where(KnowledgeBase.question.ilike(...))`
for a given table state and query. -/
def matchRows (kb : List KBEntry) (q : String) : List KBEntry :=
  kb.filter (fun e => ilikeMatch e.question q)

/-- SQLAlchemy `Result.scalar_one_or_none`: `none` on an empty result, the
single row on a singleton result, and the `MultipleResultsFound` exception
when the result has two or more rows. -/
def scalar_one_or_none : List α → Except PyExc (Option α)
  | [] => Except.ok none
  | [a] => Except.ok (some a)
  | _ :: _ :: _ => Except.error PyExc.multipleResultsFound

/-- One un-decorated execution of `get_answer_from_db` (bot.py lines
190-204): run the `ILIKE` query, extract at most one row with
`scalar_one_or_none`, and return its answer; the inner `try` block only
logs and re-raises, so it is the identity on the error path. -/
def lookup_once (kb : List KBEntry) (q : String) : Except PyExc (Option String) :=
  (scalar_one_or_none (matchRows kb q)).map (Option.map KBEntry.answer)

/-- The loop of the `db_retry` decorator (bot.py lines 70-85), with the
remaining attempt budget counting down (the Python code counts `attempts`
up towards `max_retries`; `remaining = max_retries - attempts`).  `f` is
the wrapped operation, indexed by the attempt number `a` so that
attempt-dependent outcomes are expressible.  The second component of the
result records one `dbCall` event per invocation of the wrapped
operation.  When the budget is exhausted the decorator raises its own
generic exception (line 83) rather than the last underlying error. -/
def db_retry_goT (f : Nat → Except PyExc α) : Nat → Nat → Except PyExc α × List CallEv
  | 0, _ => (Except.error PyExc.maxRetriesExceeded, [])
  | k + 1, a =>
    match f a with
    | Except.ok r => (Except.ok r, [CallEv.dbCall])
    | Except.error _ =>
      let p := db_retry_goT f k (a + 1)
      (p.1, CallEv.dbCall :: p.2)

/-- Run an operation under `db_retry(max_retries, ...)` starting at
attempt 0, returning the outcome together with its call trace. -/
def db_retry_runT (maxRetries : Nat) (f : Nat → Except PyExc α) :
    Except PyExc α × List CallEv :=
  db_retry_goT f maxRetries 0

/-- `get_answer_from_db` as deployed: the lookup wrapped in
`db_retry` with 3 max retries (bot.py line 189), with its call trace.  The
lookup is a pure function of the table state, so every attempt has the
same outcome. -/
def get_answer_from_dbT (kb : List KBEntry) (q : String) :
    Except PyExc (Option String) × List CallEv :=
  db_retry_runT 3 (fun _ => lookup_once kb q)

/-- The value returned (or exception raised) by the decorated
`get_answer_from_db`. -/
def get_answer_from_db (kb : List KBEntry) (q : String) :
    Except PyExc (Option String) :=
  (get_answer_from_dbT kb q).1

/-- Python truthiness of an optional answer string, as tested by
`if answer:` (bot.py lines 305 and 310): `None` and the empty string are
falsy, every nonempty string is truthy. -/
def pyTruthy : Option String → Bool
  | none => false
  | some a => !a.isEmpty

/-- The `handle_question` message handler (bot.py lines 301-315): query
the knowledge base; if the answer is truthy (`if answer:` — a present,
nonempty string) reply with it; otherwise call the OpenAI fallback `gen`
(modelled as an oracle that returns `none` when the API call fails, as
`get_answer_from_openai` swallows its exceptions) and, again under a
truthiness test, reply with the generated text or an apology.  No branch
writes to the knowledge base (persisting the generated answer is an
unimplemented TODO at line 312).  The trace records the database attempts
followed by the generator call when one is made. -/
def handle_questionT (kb : List KBEntry) (q : String)
    (gen : String → Option String) : Except PyExc String × List CallEv :=
  let p := get_answer_from_dbT kb q
  match p.1 with
  | Except.error e => (Except.error e, p.2)
  | Except.ok r =>
    if pyTruthy r then (Except.ok ("kb_answer:" ++ r.getD ""), p.2)
    else
      let g := gen q
      if pyTruthy g then
        (Except.ok ("openai_answer:" ++ g.getD ""), p.2 ++ [CallEv.genCall])
      else (Except.ok "gpt_unavailable", p.2 ++ [CallEv.genCall])

/-- Number of generator calls that `handle_question` performs as a
function of the database outcome: exactly one when resolution produced no
truthy answer (`None` from an empty result, or an empty-string stored
answer, both falsy under `if answer:`), zero on a truthy hit or when the
lookup raised. -/
def genCallsAfterDb (r : Except PyExc (Option String)) : Nat :=
  match r with
  | Except.ok r0 => if pyTruthy r0 then 0 else 1
  | Except.error _ => 0

/-- The `is_admin` check (bot.py lines 227-232): the configured owner is
accepted unconditionally; any other user id is looked up in the `admins`
table with `scalar_one_or_none` and converted to a boolean with `bool`. -/
def is_admin (ownerId : Int) (admins : List AdminRec) (uid : Int) :
    Except PyExc Bool :=
  if uid = ownerId then Except.ok true
  else
    (scalar_one_or_none (admins.filter (fun r => decide (r.user_id = uid)))).map
      (fun o => o.isSome)

/-- Whitespace characters for question normalization. -/
def isWS (c : Char) : Bool := c == ' ' || c == '\t' || c == '\n' || c == '\r'

/-- Split a character list into maximal runs of non-whitespace characters,
dropping all whitespace; `acc` accumulates the current word reversed. -/
def wordsAux : List Char → List Char → List (List Char)
  | [], acc => if acc.isEmpty then [] else [acc.reverse]
  | c :: t, acc =>
    if isWS c then
      if acc.isEmpty then wordsAux t [] else acc.reverse :: wordsAux t []
    else wordsAux t (c :: acc)

/-- Modelled from the spec: the case/whitespace-normalized form of a
question (lowercase, trim, collapse internal whitespace), represented as
the list of lowercased whitespace-separated words; two questions are
normalized-equal exactly when these word lists coincide.  The source has
no normalization code: no `upsert` is implemented (the save step of
`process_learning`, bot.py line 296, is an explicit placeholder), so the
uniqueness key the spec prescribes is modelled here from its words. -/
def normalizeQL (s : String) : List (List Char) := wordsAux (lowerL s) []

/-- Normalized-key equality of a stored entry against a question text. -/
def sameKey (e : KBEntry) (q : String) : Bool :=
  decide (normalizeQL e.question = normalizeQL q)

/-- A fresh primary key for an insert: one more than the maximum id. -/
def freshId (kb : List KBEntry) : Nat :=
  (kb.map KBEntry.id).foldr Nat.max 0 + 1

/-- Replace the answer of every entry whose question is normalized-equal
to `q`, leaving ids and question texts untouched. -/
def overwriteAnswer (kb : List KBEntry) (q a : String) : List KBEntry :=
  kb.map (fun e => if sameKey e q then { e with answer := a } else e)

/-- Modelled from the spec: `KnowledgeStore.upsert(question, answer,
authorId)` is missing from the source (only the `knowledge_base` table
declaration and the `process_learning` placeholder caller exist), so it is
modelled from the spec words: normalize the question and use the
normalized form as the uniqueness key; if an entry with the same key
exists, replace its answer in place keeping `id` stable, otherwise insert
a fresh row. -/
def upsert (kb : List KBEntry) (q a : String) (u : Int) : List KBEntry :=
  if kb.any (fun e => sameKey e q) then overwriteAnswer kb q a
  else kb ++ [⟨freshId kb, q, a, u⟩]

/-- The multiset of normalized question keys of a table state. -/
def kbKeys (kb : List KBEntry) : List (List (List Char)) :=
  kb.map (fun e => normalizeQL e.question)

/-- The FSM states declared in `BotStates` (bot.py lines 159-163). -/
inductive BState
  | waiting_for_question
  | waiting_for_answer
  | learning_mode
  | admin_mode
deriving DecidableEq

/-- The per-user session-relevant process state: the aiogram FSM state of
each user, the `new_question` entry of the per-user FSM data, and the
`state_timestamps` dictionary (bot.py line 170). -/
structure SessSt where
  fsm : Nat → Option BState
  newQ : Nat → Option String
  tstamp : Nat → Option Nat

/-- Point update of a user-indexed map. -/
def updF (f : Nat → Option β) (u : Nat) (v : Option β) : Nat → Option β :=
  fun x => if x = u then v else f x

/-- `schedule_state` (bot.py lines 172-173): record the current event-loop
time for the user. -/
def schedule_state (st : SessSt) (u t : Nat) : SessSt :=
  { st with tstamp := updF st.tstamp u (some t) }

/-- `handle_learning` (bot.py lines 283-286): enter `learning_mode` and
schedule the timestamp.  The same transition is taken by the keyboard
branch of `handle_buttons` (bot.py lines 326-330). -/
def handle_learning (st : SessSt) (u t : Nat) : SessSt :=
  schedule_state { st with fsm := updF st.fsm u (some BState.learning_mode) } u t

/-- The session-state effect of `process_learning` (bot.py lines 288-298):
with no pending question, record the incoming text as `new_question`;
otherwise clear the whole FSM state (state and data).  Note that it never
calls `schedule_state`, so the `state_timestamps` entry is untouched. -/
def process_learning_fsm (st : SessSt) (u : Nat) (text : String) : SessSt :=
  match st.newQ u with
  | none => { st with newQ := updF st.newQ u (some text) }
  | some _ => { st with fsm := updF st.fsm u none, newQ := updF st.newQ u none }

/-- One pass of the `check_state_timeouts` background loop (bot.py lines
175-184) at time `t`: every user whose recorded timestamp is more than 60
seconds old has the FSM state cleared and the timestamp entry deleted. -/
def check_state_timeouts_sweep (st : SessSt) (t : Nat) : SessSt where
  fsm := fun u =>
    match st.tstamp u with
    | some ts => if 60 < t - ts then none else st.fsm u
    | none => st.fsm u
  newQ := fun u =>
    match st.tstamp u with
    | some ts => if 60 < t - ts then none else st.newQ u
    | none => st.newQ u
  tstamp := fun u =>
    match st.tstamp u with
    | some ts => if 60 < t - ts then none else some ts
    | none => none

/-- Events driving the session state: a teach-intent message (dispatched
to `handle_learning`), a text message while in `learning_mode` (dispatched
to `process_learning`), and a pass of the timeout sweep. -/
inductive SessEv
  | teach (u t : Nat)
  | learnText (u t : Nat) (text : String)
  | sweepEv (t : Nat)

/-- Dispatch one event to its handler. -/
def sessStep (st : SessSt) : SessEv → SessSt
  | SessEv.teach u t => handle_learning st u t
  | SessEv.learnText u _ text => process_learning_fsm st u text
  | SessEv.sweepEv t => check_state_timeouts_sweep st t

/-- Run a sequence of events from a starting state. -/
def runTrace (st : SessSt) : List SessEv → SessSt
  | [] => st
  | e :: es => runTrace (sessStep st e) es

/-- The initial process state: no FSM state, no data, no timestamps. -/
def initSess : SessSt := ⟨fun _ => none, fun _ => none, fun _ => none⟩

/-- Knowledge-store operations a teach-flow step could perform. -/
inductive StoreOp
  | existsCheck (q : String)
  | upsertWrite (q a : String)
deriving DecidableEq

/-- Result of one `process_learning` step: the pending question after the
step, whether the FSM state was cleared, and the list of knowledge-store
operations performed during the step. -/
structure LearnStep where
  pending : Option String
  cleared : Bool
  storeOps : List StoreOp
deriving DecidableEq

/-- The store-facing behavior of `process_learning` (bot.py lines
288-298): with no pending question it records the text and prompts for an
answer; with a pending question it clears the state and reports that
saving is not implemented.  Neither branch touches the database: the body
contains no session or query use, so the operation list is empty in both
branches. -/
def process_learning_ops (data : Option String) (text : String) : LearnStep :=
  match data with
  | none => ⟨some text, false, []⟩
  | some _ => ⟨none, true, []⟩

/-- The decorated lookup collapses to a single case split, because the
wrapped operation is a pure function of the table state: a successful
first attempt returns immediately after one database call, and a failing
one is re-attempted exactly 3 times before the generic retry exception is
raised. -/
theorem get_db_specT (kb : List KBEntry) (q : String) :
    get_answer_from_dbT kb q =
      match lookup_once kb q with
      | Except.ok r => (Except.ok r, [CallEv.dbCall])
      | Except.error _ =>
        (Except.error PyExc.maxRetriesExceeded,
          [CallEv.dbCall, CallEv.dbCall, CallEv.dbCall]) := by
  cases h : lookup_once kb q with
  | ok r =>
    simp only [get_answer_from_dbT, db_retry_runT, h]
    rfl
  | error e =>
    simp only [get_answer_from_dbT, db_retry_runT, h]
    rfl

/-- Successful-lookup case of the decorated function. -/
theorem get_db_ok (kb : List KBEntry) (q : String) (r : Option String)
    (h : lookup_once kb q = Except.ok r) :
    get_answer_from_dbT kb q = (Except.ok r, [CallEv.dbCall]) := by
  rw [get_db_specT, h]

/-- Failing-lookup case of the decorated function. -/
theorem get_db_err (kb : List KBEntry) (q : String) (e : PyExc)
    (h : lookup_once kb q = Except.error e) :
    get_answer_from_dbT kb q =
      (Except.error PyExc.maxRetriesExceeded,
        [CallEv.dbCall, CallEv.dbCall, CallEv.dbCall]) := by
  rw [get_db_specT, h]

/-- With no matching row the lookup returns `None`. -/
theorem lookup_once_nil_rows (kb : List KBEntry) (q : String)
    (h : matchRows kb q = []) : lookup_once kb q = Except.ok none := by
  simp only [lookup_once]
  rw [h]
  rfl

/-- With a single matching row the lookup returns its answer. -/
theorem lookup_once_single (kb : List KBEntry) (q : String) (e : KBEntry)
    (h : matchRows kb q = [e]) :
    lookup_once kb q = Except.ok (some e.answer) := by
  simp only [lookup_once]
  rw [h]
  rfl

/-- With two or more matching rows `scalar_one_or_none` raises. -/
theorem lookup_once_multi (kb : List KBEntry) (q : String) (e e' : KBEntry)
    (t : List KBEntry) (h : matchRows kb q = e :: e' :: t) :
    lookup_once kb q = Except.error PyExc.multipleResultsFound := by
  simp only [lookup_once]
  rw [h]
  rfl

/-- C1 counterexample: resolution is not the claimed total
Resolved/Unresolved threshold dichotomy.  On a store holding two entries
whose questions both contain the query "ab" as a case-insensitive
substring, `get_answer_from_db` raises (the retry wrapper surfaces its
generic exception after `scalar_one_or_none` raises on every attempt), so
the outcome is neither `Resolved` (an answer) nor `Unresolved` (`None`);
no top-scored candidate is consulted and no score or threshold exists in
the code. -/
theorem c1_counterexample :
    get_answer_from_db [⟨1, "abc", "A1", 0⟩, ⟨2, "xaby", "A2", 0⟩] "ab" =
      Except.error PyExc.maxRetriesExceeded := by
  rfl

/-- C1 (amended): resolution applies no confidence-threshold policy.
`get_answer_from_db` returns `None` when no stored question contains the
query as a case-insensitive substring, returns the answer of the unique
matching entry when exactly one does, and raises the retry-wrapper
exception when two or more do; no score is computed and no threshold is
compared. -/
theorem c1_amended_no_threshold (kb : List KBEntry) (q : String) :
    (matchRows kb q = [] → get_answer_from_db kb q = Except.ok none) ∧
    (∀ e : KBEntry, matchRows kb q = [e] →
      get_answer_from_db kb q = Except.ok (some e.answer)) ∧
    (∀ (e e' : KBEntry) (t : List KBEntry), matchRows kb q = e :: e' :: t →
      get_answer_from_db kb q = Except.error PyExc.maxRetriesExceeded) := by
  refine ⟨fun h => ?_, fun e h => ?_, fun e e' t h => ?_⟩
  · unfold get_answer_from_db
    rw [get_db_ok kb q none (lookup_once_nil_rows kb q h)]
  · unfold get_answer_from_db
    rw [get_db_ok kb q (some e.answer) (lookup_once_single kb q e h)]
  · unfold get_answer_from_db
    rw [get_db_err kb q PyExc.multipleResultsFound
      (lookup_once_multi kb q e e' t h)]

/-- C1 amended witness: on a one-entry store whose question contains the
query, resolution returns that entry answer. -/
theorem c1_amended_witness :
    get_answer_from_db [⟨1, "abc", "A1", 0⟩] "ab" = Except.ok (some "A1") :=
  (c1_amended_no_threshold [⟨1, "abc", "A1", 0⟩] "ab").2.1 ⟨1, "abc", "A1", 0⟩
    (by decide)

/-- C4 counterexample: `db_retry` neither propagates `StorageUnavailable`
unchanged nor avoids retries.  An operation that raises
`StorageUnavailable` on every attempt is invoked 3 times (the call trace
has length 3), and the error surfaced to the caller is the generic
max-retries exception of the wrapper, not the original error. -/
theorem c4_counterexample :
    (db_retry_runT 3 (fun _ =>
        (Except.error PyExc.storageUnavailable :
          Except PyExc (Option String)))).1 =
      Except.error PyExc.maxRetriesExceeded ∧
    ((db_retry_runT 3 (fun _ =>
        (Except.error PyExc.storageUnavailable :
          Except PyExc (Option String)))).2).length = 3 :=
  ⟨rfl, rfl⟩

/-- A persistently failing operation under `db_retry` is attempted once
per unit of remaining budget and ends in the generic wrapper error. -/
theorem db_retry_goT_error {α : Type} (g : Nat → Except PyExc α)
    (h : ∀ i, ∃ e, g i = Except.error e) :
    ∀ k a, db_retry_goT g k a =
      (Except.error PyExc.maxRetriesExceeded,
        List.replicate k CallEv.dbCall) := by
  intro k
  induction k with
  | zero => intro a; rfl
  | succ k ih =>
    intro a
    obtain ⟨e, he⟩ := h a
    simp [db_retry_goT, he, ih (a + 1), List.replicate_succ]

/-- C4 (amended): when the wrapped storage operation raises
`StorageUnavailable` on every attempt, the `db_retry` wrapper retries it —
invoking it exactly 3 times — and then raises its own generic max-retries
exception instead of propagating `StorageUnavailable` unchanged. -/
theorem c4_amended_retries_and_translates
    (g : Nat → Except PyExc (Option String))
    (h : ∀ i, g i = Except.error PyExc.storageUnavailable) :
    (db_retry_runT 3 g).1 = Except.error PyExc.maxRetriesExceeded ∧
    ((db_retry_runT 3 g).2).length = 3 := by
  have hg := db_retry_goT_error g (fun i => ⟨PyExc.storageUnavailable, h i⟩) 3 0
  rw [db_retry_runT, hg]
  simp

/-- C4 amended witness at the constant failing operation. -/
theorem c4_amended_witness :
    (db_retry_runT 3 (fun _ =>
        (Except.error PyExc.storageUnavailable :
          Except PyExc (Option String)))).1 =
        Except.error PyExc.maxRetriesExceeded ∧
    ((db_retry_runT 3 (fun _ =>
        (Except.error PyExc.storageUnavailable :
          Except PyExc (Option String)))).2).length = 3 :=
  c4_amended_retries_and_translates _ (fun _ => rfl)

/-- C6 counterexample: lookup is not invariant under whitespace
normalization.  With the question "a  b" (two spaces) stored, checking its
whitespace-collapsed form "a b" finds nothing, because the `ILIKE`
substring comparison performs no trimming or whitespace collapsing and no
normalized key exists anywhere in the code. -/
theorem c6_counterexample :
    get_answer_from_db [⟨1, "a  b", "ans", 0⟩] "a b" = Except.ok none := by
  rfl

/-- C6 (amended): lookup is case-insensitive but not
whitespace-normalized.  For any two query texts with the same lowercasing
(in particular any case-variants with identical whitespace), resolution
returns identical results on every store, because `ILIKE` lowercases both
operands of its substring comparison; no trim or whitespace-collapse is
applied by any operation. -/
theorem c6_amended_case_invariance (kb : List KBEntry) (q q' : String)
    (h : lowerL q = lowerL q') :
    get_answer_from_db kb q = get_answer_from_db kb q' := by
  have hp : (fun e : KBEntry => ilikeMatch e.question q) =
      (fun e : KBEntry => ilikeMatch e.question q') := by
    funext e
    unfold ilikeMatch
    rw [h]
  have hm : matchRows kb q = matchRows kb q' := by
    unfold matchRows
    rw [hp]
  have hl : lookup_once kb q = lookup_once kb q' := by
    unfold lookup_once
    rw [hm]
  unfold get_answer_from_db get_answer_from_dbT db_retry_runT
  simp only [hl]

/-- C6 amended witness: a stored question is found under a lowercased
variant of itself, with the same result as under the original text. -/
theorem c6_amended_witness :
    get_answer_from_db [⟨1, "How do I render?", "Use cycles", 5⟩]
        "How do I render?" =
      get_answer_from_db [⟨1, "How do I render?", "Use cycles", 5⟩]
        "how do i render?" ∧
    get_answer_from_db [⟨1, "How do I render?", "Use cycles", 5⟩]
        "how do i render?" = Except.ok (some "Use cycles") :=
  ⟨c6_amended_case_invariance _ _ _ (by decide), by rfl⟩

/-- C7: resolving any query against an empty knowledge store returns
`None` (unresolved) and raises no exception: the `ILIKE` query over an
empty table yields no rows, `scalar_one_or_none` maps that to `None`, and
the first retry attempt succeeds. -/
theorem c7_empty_store_unresolved :
    ∀ q : String, get_answer_from_db ([] : List KBEntry) q = Except.ok none :=
  fun _ => rfl

/-- C7 witness at a concrete query. -/
theorem c7_witness :
    get_answer_from_db ([] : List KBEntry) "anything" = Except.ok none :=
  c7_empty_store_unresolved "anything"

/-- C2: the resolution core performs no generative-fallback call.  The
call trace of the decorated `get_answer_from_db` contains no OpenAI call
and no store write; in `handle_question` the generator oracle is invoked
exactly once when — and only when — the core produced no truthy answer
(`None` on unresolved, or an empty-string stored answer, both falsy under
the `if answer:` test), i.e. by the handler after the core has finished;
in particular on every unresolved resolution the single generator call is
the handler one and the core made none.  No branch of the handler
performs a store write (persisting the generated answer is an
unimplemented TODO in the source). -/
theorem c2_core_makes_no_generative_call (kb : List KBEntry) (q : String)
    (gen : String → Option String) :
    (get_answer_from_dbT kb q).2.count CallEv.genCall = 0 ∧
    (get_answer_from_dbT kb q).2.count CallEv.upsertCall = 0 ∧
    (handle_questionT kb q gen).2.count CallEv.genCall =
      genCallsAfterDb (get_answer_from_db kb q) ∧
    (handle_questionT kb q gen).2.count CallEv.upsertCall = 0 := by
  have hs := get_db_specT kb q
  cases h : lookup_once kb q with
  | ok r =>
    rw [h] at hs
    cases ht : pyTruthy r with
    | true =>
      simp [handle_questionT, hs, get_answer_from_db, genCallsAfterDb, ht,
        List.count_cons, List.count_nil]
    | false =>
      cases hg : pyTruthy (gen q) <;>
        simp [handle_questionT, hs, get_answer_from_db, genCallsAfterDb, ht,
          hg, List.count_append, List.count_cons, List.count_nil]
  | error e =>
    rw [h] at hs
    simp [handle_questionT, hs, get_answer_from_db, genCallsAfterDb,
      List.count_cons, List.count_nil]

/-- C5: evaluation of `process_learning` at the failing scenario.  With
the question already stored (the knowledge base is irrelevant to the code,
which never consults it), submitting it in learning mode records it and
prompts for an answer while performing no store operation at all — no
existence check, hence no confirm-overwrite stage — and the follow-up
message clears the session performing no write. -/
theorem c5_code_behavior :
    process_learning_ops none "Q" = ⟨some "Q", false, []⟩ ∧
    process_learning_ops (some "Q") "A" = ⟨none, true, []⟩ :=
  ⟨rfl, rfl⟩

/-- C9: the lookup is exception-free exactly under the at-most-one-match
precondition.  When two or more stored rows contain the query as a
case-insensitive substring, `scalar_one_or_none` raises
`MultipleResultsFound` (and the decorated resolution consequently raises
the retry-wrapper exception instead of returning a best match); when at
most one row matches, the lookup returns normally. -/
theorem c9_at_most_one_match_precondition (kb : List KBEntry) (q : String) :
    (∀ (e e' : KBEntry) (t : List KBEntry), matchRows kb q = e :: e' :: t →
      lookup_once kb q = Except.error PyExc.multipleResultsFound) ∧
    (∀ (e e' : KBEntry) (t : List KBEntry), matchRows kb q = e :: e' :: t →
      get_answer_from_db kb q = Except.error PyExc.maxRetriesExceeded) ∧
    ((matchRows kb q).length ≤ 1 →
      ∃ r, lookup_once kb q = Except.ok r) := by
  refine ⟨fun e e' t h => lookup_once_multi kb q e e' t h,
    fun e e' t h => ?_, fun h => ?_⟩
  · unfold get_answer_from_db
    rw [get_db_err kb q PyExc.multipleResultsFound
      (lookup_once_multi kb q e e' t h)]
  · cases hm : matchRows kb q with
    | nil => exact ⟨none, lookup_once_nil_rows kb q hm⟩
    | cons e t =>
      cases t with
      | nil => exact ⟨some e.answer, lookup_once_single kb q e hm⟩
      | cons e' t' =>
        rw [hm] at h
        simp at h

/-- C9 witness: a two-match store raises, a no-match store returns. -/
theorem c9_witness :
    lookup_once [⟨1, "abc", "A1", 0⟩, ⟨2, "xaby", "A2", 0⟩] "ab" =
      Except.error PyExc.multipleResultsFound ∧
    ∃ r, lookup_once [⟨1, "abc", "A1", 0⟩] "zz" = Except.ok r :=
  ⟨(c9_at_most_one_match_precondition _ "ab").1
      ⟨1, "abc", "A1", 0⟩ ⟨2, "xaby", "A2", 0⟩ [] (by decide),
    (c9_at_most_one_match_precondition [⟨1, "abc", "A1", 0⟩] "zz").2.2
      (by decide)⟩

/-- Under a duplicate-free image of `f`, at most one list element can have
a given `f`-value; models the effect of a SQL uniqueness constraint. -/
theorem filter_dec_length_le_one {α β : Type} [DecidableEq β]
    (l : List α) (f : α → β) (x : β) (h : (l.map f).Nodup) :
    (l.filter (fun a => decide (f a = x))).length ≤ 1 := by
  induction l with
  | nil => simp
  | cons a t ih =>
    simp only [List.map_cons, List.nodup_cons] at h
    obtain ⟨hna, hnd⟩ := h
    by_cases hax : f a = x
    · have ht : t.filter (fun b => decide (f b = x)) = [] := by
        refine List.filter_eq_nil_iff.mpr fun b hb => ?_
        simp only [decide_eq_true_eq]
        intro hbx
        apply hna
        have hba : f a = f b := hax.trans hbx.symm
        rw [hba]
        exact List.mem_map_of_mem f hb
      simp [List.filter_cons, hax, ht]
    · simp only [List.filter_cons, hax, decide_False, if_false]
      exact ih hnd

/-- C10: the configured owner is unconditionally an admin.  For every
admins-table state whose user ids satisfy the uniqueness constraint the
table declares (so duplicate rows are unreachable), `is_admin` returns
`true` for the id equal to `OWNER_ID` — including on an empty table — and
for any other id it returns `true` exactly when a row with that user id
exists. -/
theorem c10_owner_always_admin (ownerId : Int) (admins : List AdminRec)
    (uid : Int) (h : (admins.map AdminRec.user_id).Nodup) :
    is_admin ownerId admins uid =
      Except.ok (decide (uid = ownerId) ||
        admins.any (fun r => decide (r.user_id = uid))) := by
  by_cases ho : uid = ownerId
  · simp [is_admin, ho]
  · simp only [is_admin, if_neg ho]
    have hle := filter_dec_length_le_one admins AdminRec.user_id uid h
    cases hf : admins.filter (fun r => decide (r.user_id = uid)) with
    | nil =>
      have hany : admins.any (fun r => decide (r.user_id = uid)) = false := by
        refine List.any_eq_false.mpr fun r hr => ?_
        have := List.filter_eq_nil_iff.mp hf r hr
        simpa using this
      simp [scalar_one_or_none, ho, hany]
      rfl
    | cons r t =>
      cases t with
      | nil =>
        have hmem : r ∈ admins.filter (fun r => decide (r.user_id = uid)) := by
          rw [hf]
          exact List.mem_cons_self r []
        have hany : admins.any (fun r => decide (r.user_id = uid)) = true :=
          List.any_eq_true.mpr
            ⟨r, (List.mem_filter.mp hmem).1, (List.mem_filter.mp hmem).2⟩
        simp [scalar_one_or_none, ho, hany]
        rfl
      | cons r' t' =>
        rw [hf] at hle
        simp at hle

/-- C10 witness: on an empty admins table the owner is accepted. -/
theorem c10_witness : is_admin 42 ([] : List AdminRec) 42 = Except.ok true := by
  simpa using c10_owner_always_admin 42 [] 42 (by decide)

/-- C8 counterexample: a session that keeps receiving input within the
60-second window is nevertheless discarded.  User 7 enters learning mode
at time 0, sends a message at time 30 (well within the window), yet the
sweep at time 70 — only 40 seconds after the last input — clears the
state, because `process_learning` never refreshes the timestamp recorded
at entry. -/
theorem c8_counterexample :
    (runTrace initSess
        [SessEv.teach 7 0, SessEv.learnText 7 30 "q",
          SessEv.sweepEv 70]).fsm 7 = none ∧
    30 - 0 ≤ 60 ∧ 70 - 30 ≤ 60 := by
  refine ⟨?_, by decide, by decide⟩
  rfl

/-- C8 (amended): the timeout window measures time since the state was
scheduled at entry, not idle time since the last input.  A sweep at time
`t` discards the session and timestamp of a user whose timestamp `ts`
satisfies `t - ts > 60`, leaves them untouched when `t - ts ≤ 60`, and
`process_learning` never updates the timestamp map — so an actively used
session is still discarded once 60 seconds have passed since entry. -/
theorem c8_amended_timeout_measures_entry (st : SessSt) (u t ts : Nat)
    (txt : String) (h : st.tstamp u = some ts) :
    (60 < t - ts →
      (check_state_timeouts_sweep st t).fsm u = none ∧
      (check_state_timeouts_sweep st t).tstamp u = none) ∧
    (t - ts ≤ 60 →
      (check_state_timeouts_sweep st t).fsm u = st.fsm u ∧
      (check_state_timeouts_sweep st t).tstamp u = st.tstamp u) ∧
    (process_learning_fsm st u txt).tstamp = st.tstamp := by
  refine ⟨fun hlt => ?_, fun hle => ?_, ?_⟩
  · constructor <;> simp [check_state_timeouts_sweep, h, hlt]
  · have hnl : ¬ 60 < t - ts := Nat.not_lt.mpr hle
    constructor <;> simp [check_state_timeouts_sweep, h, hnl]
  · cases hq : st.newQ u <;> simp [process_learning_fsm, hq]

/-- C8 amended witness: a user scheduled at time 0 is cleared by the sweep
at time 70. -/
theorem c8_amended_witness :
    (check_state_timeouts_sweep
        ⟨fun u => if u = 7 then some BState.learning_mode else none,
          fun _ => none,
          fun u => if u = 7 then some 0 else none⟩ 70).fsm 7 = none :=
  ((c8_amended_timeout_measures_entry
      ⟨fun u => if u = 7 then some BState.learning_mode else none,
        fun _ => none,
        fun u => if u = 7 then some 0 else none⟩ 7 70 0 "x" (by rfl)).1
    (by decide)).1

/-- Overwriting an answer does not change the normalized key of an entry. -/
theorem sameKey_update (e : KBEntry) (q q0 a : String) :
    sameKey (if sameKey e q0 then { e with answer := a } else e) q =
      sameKey e q := by
  by_cases hp : normalizeQL e.question = normalizeQL q0 <;>
    simp [sameKey, hp]

/-- `overwriteAnswer` preserves the key list of the table. -/
theorem kbKeys_overwriteAnswer (kb : List KBEntry) (q a : String) :
    kbKeys (overwriteAnswer kb q a) = kbKeys kb := by
  simp only [kbKeys, overwriteAnswer, List.map_map]
  refine List.map_congr_left fun e he => ?_
  by_cases h : sameKey e q <;> simp [Function.comp, h]

/-- `overwriteAnswer` preserves the id list of the table. -/
theorem ids_overwriteAnswer (kb : List KBEntry) (q a : String) :
    (overwriteAnswer kb q a).map KBEntry.id = kb.map KBEntry.id := by
  simp only [overwriteAnswer, List.map_map]
  refine List.map_congr_left fun e he => ?_
  by_cases h : sameKey e q <;> simp [Function.comp, h]

/-- Filtering by a key commutes with `overwriteAnswer`, because the
overwrite preserves keys. -/
theorem filter_overwriteAnswer (kb : List KBEntry) (q0 q a : String) :
    (overwriteAnswer kb q0 a).filter (fun e => sameKey e q) =
      (kb.filter (fun e => sameKey e q)).map
        (fun e => if sameKey e q0 then { e with answer := a } else e) := by
  unfold overwriteAnswer
  rw [List.filter_map]
  have hp : ((fun e => sameKey e q) ∘
      (fun e => if sameKey e q0 then { e with answer := a } else e)) =
      (fun e : KBEntry => sameKey e q) := by
    funext e
    simp [Function.comp, sameKey_update]
  rw [hp]

/-- After an upsert the table holds an entry with the upserted key. -/
theorem mem_upsert_key (kb : List KBEntry) (q a : String) (u : Int) :
    ∃ e ∈ upsert kb q a u, sameKey e q = true := by
  by_cases h : kb.any (fun e => sameKey e q) = true
  · obtain ⟨e, he, hk⟩ := List.any_eq_true.mp h
    unfold upsert
    rw [if_pos h]
    refine ⟨if sameKey e q then { e with answer := a } else e, ?_, ?_⟩
    · exact List.mem_map_of_mem _ he
    · rw [sameKey_update]
      exact hk
  · unfold upsert
    rw [if_neg h]
    exact ⟨⟨freshId kb, q, a, u⟩, by simp, by simp [sameKey]⟩

/-- After an upsert the table holds exactly one entry with the upserted
key, provided the table satisfied the uniqueness invariant before. -/
theorem filter_upsert_len (kb : List KBEntry) (q a : String) (u : Int)
    (hnd : (kbKeys kb).Nodup) :
    ((upsert kb q a u).filter (fun e => sameKey e q)).length = 1 := by
  have hle1 : (kb.filter (fun e => sameKey e q)).length ≤ 1 := by
    simpa [sameKey] using
      filter_dec_length_le_one kb (fun e => normalizeQL e.question)
        (normalizeQL q) (by simpa [kbKeys] using hnd)
  by_cases h : kb.any (fun e => sameKey e q) = true
  · unfold upsert
    rw [if_pos h, filter_overwriteAnswer, List.length_map]
    obtain ⟨e, he, hk⟩ := List.any_eq_true.mp h
    have hge : 0 < (kb.filter (fun e => sameKey e q)).length :=
      List.length_pos_of_mem (List.mem_filter.mpr ⟨he, hk⟩)
    omega
  · have hfalse : kb.any (fun e => sameKey e q) = false := by
      revert h
      cases kb.any (fun e => sameKey e q) <;> simp
    have h0 : kb.filter (fun e => sameKey e q) = [] := by
      refine List.filter_eq_nil_iff.mpr fun e he => ?_
      simpa using List.any_eq_false.mp hfalse e he
    unfold upsert
    rw [if_neg h, List.filter_append, h0]
    simp [sameKey]

/-- An upsert preserves the uniqueness invariant on normalized keys. -/
theorem kbKeys_upsert_nodup (kb : List KBEntry) (q a : String) (u : Int)
    (hnd : (kbKeys kb).Nodup) : (kbKeys (upsert kb q a u)).Nodup := by
  by_cases h : kb.any (fun e => sameKey e q) = true
  · unfold upsert
    rw [if_pos h, kbKeys_overwriteAnswer]
    exact hnd
  · have hfalse : kb.any (fun e => sameKey e q) = false := by
      revert h
      cases kb.any (fun e => sameKey e q) <;> simp
    unfold upsert
    rw [if_neg h]
    simp only [kbKeys, List.map_append, List.map_cons, List.map_nil]
    rw [List.nodup_append]
    refine ⟨hnd, List.nodup_singleton _, ?_⟩
    intro x hx hxK
    obtain ⟨e, he, hk⟩ := List.mem_map.mp hx
    have hne := List.any_eq_false.mp hfalse e he
    simp only [sameKey, decide_eq_true_eq] at hne
    have hxq : x = normalizeQL q := by simpa using hxK
    exact hne (hk.trans hxq)

/-- When an entry with the key already exists, upsert is the in-place
overwrite. -/
theorem upsert_pos (kb : List KBEntry) (q a : String) (u : Int)
    (h : kb.any (fun e => sameKey e q) = true) :
    upsert kb q a u = overwriteAnswer kb q a := by
  unfold upsert
  rw [if_pos h]

/-- C3: upsert (Modelled from the spec, as the source leaves the save
step unimplemented) is idempotent under normalization.  A second upsert
with a normalized-equal question overwrites in place: the entry count is
unchanged, the id list is unchanged, exactly one entry carries the key
and its answer is the second answer, and the no-duplicate invariant on
normalized keys is preserved — no operation creates a duplicate row. -/
theorem c3_upsert_idempotent (kb : List KBEntry) (q q' a1 a2 : String)
    (u u' : Int) (hq : normalizeQL q' = normalizeQL q)
    (hnd : (kbKeys kb).Nodup) :
    (upsert (upsert kb q a1 u) q' a2 u').length =
      (upsert kb q a1 u).length ∧
    (upsert (upsert kb q a1 u) q' a2 u').map KBEntry.id =
      (upsert kb q a1 u).map KBEntry.id ∧
    ((upsert (upsert kb q a1 u) q' a2 u').filter
        (fun e => sameKey e q)).map KBEntry.answer = [a2] ∧
    (kbKeys (upsert (upsert kb q a1 u) q' a2 u')).Nodup := by
  have hqk : ∀ e : KBEntry, sameKey e q' = sameKey e q := by
    intro e
    simp [sameKey, hq]
  have hany : (upsert kb q a1 u).any (fun e => sameKey e q') = true := by
    obtain ⟨e, he, hk⟩ := mem_upsert_key kb q a1 u
    exact List.any_eq_true.mpr ⟨e, he, by rw [hqk]; exact hk⟩
  have hup2 : upsert (upsert kb q a1 u) q' a2 u' =
      overwriteAnswer (upsert kb q a1 u) q' a2 :=
    upsert_pos (upsert kb q a1 u) q' a2 u' hany
  have hnd1 : (kbKeys (upsert kb q a1 u)).Nodup :=
    kbKeys_upsert_nodup kb q a1 u hnd
  have hlen1 : (((upsert kb q a1 u).filter
      (fun e => sameKey e q)).length = 1) := filter_upsert_len kb q a1 u hnd
  refine ⟨?_, ?_, ?_, ?_⟩
  · rw [hup2]
    simp [overwriteAnswer]
  · rw [hup2, ids_overwriteAnswer]
  · rw [hup2, filter_overwriteAnswer]
    obtain ⟨e0, he0⟩ := List.length_eq_one.mp hlen1
    rw [he0]
    have hk0 : sameKey e0 q = true := by
      have hm : e0 ∈ (upsert kb q a1 u).filter (fun e => sameKey e q) := by
        rw [he0]
        exact List.mem_cons_self _ _
      exact (List.mem_filter.mp hm).2
    have hk0' : sameKey e0 q' = true := by
      rw [hqk]
      exact hk0
    simp [hk0']
  · rw [hup2, kbKeys_overwriteAnswer]
    exact hnd1

/-- C3 witness: inserting a question and then upserting a normalized-equal
variant leaves one entry, same id, answer replaced, invariant intact. -/
theorem c3_witness :
    (upsert (upsert ([] : List KBEntry) "How  do I RENDER?" "A1" 9)
        "how do i render?" "A2" 8).length =
      (upsert ([] : List KBEntry) "How  do I RENDER?" "A1" 9).length ∧
    (upsert (upsert ([] : List KBEntry) "How  do I RENDER?" "A1" 9)
        "how do i render?" "A2" 8).map KBEntry.id =
      (upsert ([] : List KBEntry) "How  do I RENDER?" "A1" 9).map KBEntry.id ∧
    ((upsert (upsert ([] : List KBEntry) "How  do I RENDER?" "A1" 9)
        "how do i render?" "A2" 8).filter
        (fun e => sameKey e "How  do I RENDER?")).map KBEntry.answer =
      ["A2"] ∧
    (kbKeys (upsert (upsert ([] : List KBEntry) "How  do I RENDER?" "A1" 9)
        "how do i render?" "A2" 8)).Nodup :=
  c3_upsert_idempotent [] "How  do I RENDER?" "how do i render?" "A1" "A2" 9 8
    (by decide) (by decide)
